import Mathlib

/-!
Shallow embedding of the `gook` validation-rule engine (Go) and proofs about
its evaluation algorithm.

Source correspondence:
  - `Result`, `ResultStatus`, `Result.OK` embed the trace model (result.go).
  - `Rule`/`RuleList` embed the generic `Rule[T]` struct of the variant that
    carries the `KindThen` pipeline (rule.go): fields `Label`, `Kind`,
    `TestFn`, `Children`, `Transform`, `NextRule`.  Go's `RuleKind` is an
    `int`, so `Kind` is an `Int` here and unknown kinds are representable.
    `RuleList T` is a specialized child list (Lean cannot nest `List` around
    an indexed family); `RuleList.fromList` converts from ordinary lists.
  - Go's `Rule[any]` is `Rule AnyVal`, where `AnyVal` is a closed tagged
    union standing for `interface{}` values; class `GoVal` gives the
    injection/type-assertion pair of a concrete Go type.
  - Functions that can panic in Go (nil function call, nil rule pointer
    dereference) are embedded with result type `ExecRes α`: `.crash` is a
    panic, `.ok a` a normal return.  The cancellation signal of
    `context.Context` is sampled as a `Bool` (`true` = already cancelled).
  - `Rule.validateRecursive` embeds `Rule.validateRecursive` together with
    the per-kind bodies `validateTest`, `validateAll`, `validateAny`,
    `validateNot`, `validateThen` (inlined at their dispatch cases);
    `Rule.validateAllLoop` / `Rule.validateAnyLoop` are the loops of
    `validateAll` / `validateAny`.
  - `typeEraseRule`, `Then`, `OneOf`, `Test`, `All`, `Any`, `Not` embed the
    constructors of the same file.
  - `ThenRule`, `ThenRule.validateRecursive`, `ChainThen` embed the separate
    generic pipeline variant (then.go); `GoZero` supplies Go's zero value
    used by `ChainThen`.
-/

namespace Gook

/-- Closed tagged union modelling Go `interface{}` (`any`) values as used by
the engine's type-erasure discipline. -/
inductive AnyVal : Type where
  | aStr (s : String)
  | aInt (n : Int)
  | aBool (b : Bool)
deriving DecidableEq

/-- Runtime type name of an erased value, as Go's `%T` verb prints it. -/
def AnyVal.goTypeName : AnyVal → String
  | .aStr _ => "string"
  | .aInt _ => "int"
  | .aBool _ => "bool"

/-- Outcome of running embedded Go code: `.crash` models a panic (nil
function call or nil pointer dereference), `.ok` a normal return. -/
inductive ExecRes (α : Type) : Type where
  | crash
  | ok (a : α)
deriving DecidableEq

/-- Embeds `ResultStatus` (`StatusPass`, `StatusFail`, `StatusSkip`). -/
inductive ResultStatus : Type where
  | pass
  | fail
  | skip
deriving DecidableEq

/-- Embeds the `Result` struct: status, label, kind, message, children. -/
inductive Result : Type where
  | mk (status : ResultStatus) (label : String) (kind : Int) (message : String)
       (children : List Result)

/-- Field `Result.Status`. -/
def Result.Status : Result → ResultStatus
  | .mk s _ _ _ _ => s

/-- Field `Result.Label`. -/
def Result.Label : Result → String
  | .mk _ l _ _ _ => l

/-- Field `Result.Kind`. -/
def Result.Kind : Result → Int
  | .mk _ _ k _ _ => k

/-- Field `Result.Message`. -/
def Result.Message : Result → String
  | .mk _ _ _ m _ => m

/-- Field `Result.Children`. -/
def Result.Children : Result → List Result
  | .mk _ _ _ _ c => c

/-- Embeds `Result.OK`: true iff the status is `StatusPass`. -/
def Result.OK (r : Result) : Bool :=
  match r.Status with
  | .pass => true
  | _ => false

/-- The `RuleKind` constants `KindTest`, `KindAll`, `KindAny`, `KindNot`,
`KindThen` (Go iota values 0..4). -/
def KindTest : Int := 0

/-- Go constant `KindAll`. -/
def KindAll : Int := 1

/-- Go constant `KindAny`. -/
def KindAny : Int := 2

/-- Go constant `KindNot`. -/
def KindNot : Int := 3

/-- Go constant `KindThen`. -/
def KindThen : Int := 4

/-- Embeds `RuleKind.String`. -/
def kindString (k : Int) : String :=
  if k = 0 then "test"
  else if k = 1 then "all"
  else if k = 2 then "any"
  else if k = 3 then "not"
  else if k = 4 then "then"
  else "unknown"

mutual

/-- Embeds the generic `Rule[T]` struct of the pipeline-carrying variant.
A predicate (`TestFn`) takes the cancellation flag and the value and returns
`.ok none` for success, `.ok (some msg)` for a validation error with message
`msg`, `.crash` for a panic inside the predicate.  `testFn`, `transform` and
`nextRule` are `Option`s because the corresponding Go fields are nilable. -/
inductive Rule : Type → Type 1 where
  | mk {T : Type} (label : String) (kind : Int)
       (testFn : Option (Bool → T → ExecRes (Option String)))
       (children : RuleList T)
       (transform : Option (T → ExecRes (AnyVal × Option String)))
       (nextRule : Option (Rule AnyVal)) : Rule T

/-- Child list of a rule (`Children []*Rule[T]`, with no nil entries). -/
inductive RuleList : Type → Type 1 where
  | nil {T : Type} : RuleList T
  | cons {T : Type} (hd : Rule T) (tl : RuleList T) : RuleList T

end

/-- Field `Rule.Label`. -/
def Rule.Label {T : Type} : Rule T → String
  | .mk l _ _ _ _ _ => l

/-- Field `Rule.Kind`. -/
def Rule.Kind {T : Type} : Rule T → Int
  | .mk _ k _ _ _ _ => k

/-- Field `Rule.TestFn`. -/
def Rule.TestFn {T : Type} : Rule T → Option (Bool → T → ExecRes (Option String))
  | .mk _ _ tf _ _ _ => tf

/-- Field `Rule.Children`. -/
def Rule.Children {T : Type} : Rule T → RuleList T
  | .mk _ _ _ ch _ _ => ch

/-- Field `Rule.Transform`. -/
def Rule.Transform {T : Type} : Rule T → Option (T → ExecRes (AnyVal × Option String))
  | .mk _ _ _ _ trf _ => trf

/-- Field `Rule.NextRule`. -/
def Rule.NextRule {T : Type} : Rule T → Option (Rule AnyVal)
  | .mk _ _ _ _ _ nr => nr

/-- Convert an ordinary list of rules into a child list. -/
def RuleList.fromList {T : Type} : List (Rule T) → RuleList T
  | [] => .nil
  | r :: rs => .cons r (RuleList.fromList rs)

/-- Length of a child list (`len(r.Children)`). -/
def RuleList.length {T : Type} : RuleList T → Nat
  | .nil => 0
  | .cons _ tl => 1 + RuleList.length tl

/-- The Skip placeholder the engine synthesizes for a short-circuited child:
status Skip, the child's label and kind, no message, no children. -/
def skipResult {T : Type} (r : Rule T) : Result :=
  Result.mk .skip r.Label r.Kind "" []

/-- Skip placeholders for all rules of a child list (the inner `for j := i+1`
loops of `validateAll` / `validateAny`). -/
def RuleList.skipAll {T : Type} : RuleList T → List Result
  | .nil => []
  | .cons r rest => skipResult r :: RuleList.skipAll rest

/-- Embeds `Rule.validateTest`: call the predicate, Fail with its message on
error, Pass otherwise.  A nil `TestFn` is called anyway in Go, a panic. -/
def Rule.validateTest {T : Type} (label : String)
    (tf : Option (Bool → T → ExecRes (Option String))) (ctx : Bool) (v : T) :
    ExecRes Result :=
  match tf with
  | none => .crash  -- r.TestFn is nil: calling it panics
  | some fn =>
    match fn ctx v with
    | .crash => .crash
    | .ok (some msg) => .ok (Result.mk .fail label 0 msg [])
    | .ok none => .ok (Result.mk .pass label 0 "" [])

mutual

/-- Embeds `Rule.validateRecursive` of the pipeline-carrying variant: the
cancellation check followed by the `switch r.Kind` dispatch, including the
defensive default branch for unrecognized kinds. -/
def Rule.validateRecursive {T : Type} : Rule T → Bool → T → ExecRes Result
  | .mk label kind tf ch trf nr, ctx, v =>
    -- select { case <-ctx.Done(): ... }
    if ctx then
      .ok (Result.mk .fail label kind "context cancelled" [])
    else if kind = 0 then Rule.validateTest label tf ctx v
    else if kind = 1 then Rule.validateAll label ch ctx v
    else if kind = 2 then Rule.validateAny label ch ctx v
    else if kind = 3 then Rule.validateNot label ch ctx v
    else if kind = 4 then Rule.validateThen label ch trf nr ctx v
    else
      .ok (Result.mk .fail label kind ("unknown rule kind: " ++ kindString kind) [])
termination_by r _ _ => (sizeOf r, 0)

/-- Embeds `Rule.validateAll`: run the children loop, overall Fail on a
failure, Pass otherwise, with all children attached. -/
def Rule.validateAll {T : Type} (label : String) (ch : RuleList T) (ctx : Bool) (v : T) :
    ExecRes Result :=
  match Rule.validateAllLoop ch ctx v with
  | .crash => .crash
  | .ok (cs, failed) =>
    .ok (Result.mk (if failed then .fail else .pass) label 1 "" cs)
termination_by (sizeOf ch, 2)

/-- The loop of `validateAll`: evaluate children left to right, short-circuit
on the first Fail, fill the remainder with Skip placeholders.  Returns the
children results and whether a failure occurred. -/
def Rule.validateAllLoop {T : Type} : RuleList T → Bool → T → ExecRes (List Result × Bool)
  | .nil, _, _ => .ok ([], false)
  | .cons r rest, ctx, v =>
    match Rule.validateRecursive r ctx v with
    | .crash => .crash
    | .ok childResult =>
      if childResult.Status = .fail then
        .ok (childResult :: RuleList.skipAll rest, true)
      else
        match Rule.validateAllLoop rest ctx v with
        | .crash => .crash
        | .ok (others, failed) => .ok (childResult :: others, failed)
termination_by ch _ _ => (sizeOf ch, 1)

/-- Embeds `Rule.validateAny`: run the children loop, overall Pass on a
success, Fail otherwise, with all children attached. -/
def Rule.validateAny {T : Type} (label : String) (ch : RuleList T) (ctx : Bool) (v : T) :
    ExecRes Result :=
  match Rule.validateAnyLoop ch ctx v with
  | .crash => .crash
  | .ok (cs, passed) =>
    .ok (Result.mk (if passed then .pass else .fail) label 2 "" cs)
termination_by (sizeOf ch, 2)

/-- The loop of `validateAny`: evaluate children left to right, short-circuit
on the first Pass, fill the remainder with Skip placeholders.  Returns the
children results and whether a pass occurred. -/
def Rule.validateAnyLoop {T : Type} : RuleList T → Bool → T → ExecRes (List Result × Bool)
  | .nil, _, _ => .ok ([], false)
  | .cons r rest, ctx, v =>
    match Rule.validateRecursive r ctx v with
    | .crash => .crash
    | .ok childResult =>
      if childResult.Status = .pass then
        .ok (childResult :: RuleList.skipAll rest, true)
      else
        match Rule.validateAnyLoop rest ctx v with
        | .crash => .crash
        | .ok (others, passed) => .ok (childResult :: others, passed)
termination_by ch _ _ => (sizeOf ch, 1)

/-- Embeds `Rule.validateNot`: require exactly one child, else Fail with the
structural-error message; otherwise evaluate the child and invert. -/
def Rule.validateNot {T : Type} (label : String) (ch : RuleList T) (ctx : Bool) (v : T) :
    ExecRes Result :=
  match ch with
  | .cons c .nil =>
    match Rule.validateRecursive c ctx v with
    | .crash => .crash
    | .ok childResult =>
      .ok (Result.mk
        (match childResult.Status with
         | .pass => .fail
         | .fail => .pass
         | .skip => .skip)
        label 3
        (match childResult.Status with
         | .pass => "not rule failed (child passed)"
         | _ => "")
        [childResult])
  | _ => .ok (Result.mk .fail label 3 "not rule must have exactly one child" [])
termination_by (sizeOf ch, 1)

/-- Embeds `Rule.validateThen`: nil-check transform and next rule, evaluate
the optional first-stage child, then hand over to the tail (transform and
second stage). -/
def Rule.validateThen {T : Type} (label : String) (ch : RuleList T)
    (trf : Option (T → ExecRes (AnyVal × Option String))) (nr : Option (Rule AnyVal))
    (ctx : Bool) (v : T) : ExecRes Result :=
  match trf, nr with
  | some transform, some next =>
    match ch with
    | .nil =>
      -- len(r.Children) == 0: no first-stage rule, firstResult stays nil
      Rule.validateThenTail label none transform next ctx v
    | .cons c _ =>
      -- first := r.Children[0]
      match Rule.validateRecursive c ctx v with
      | .crash => .crash
      | .ok firstResult =>
        if firstResult.Status = .fail then
          .ok (Result.mk .fail label 4 "first rule failed" [firstResult])
        else
          Rule.validateThenTail label (some firstResult) transform next ctx v
  | _, _ => .ok (Result.mk .fail label 4 "then rule missing transform or next rule" [])
termination_by (sizeOf ch + sizeOf nr, 1)

/-- Tail of `Rule.validateThen` after the first stage did not fail: apply the
transform, and on success evaluate the type-erased next rule and combine.
`firstResult.toList` renders Go's conditional child appends for a possibly
nil `firstResult`. -/
def Rule.validateThenTail {T : Type} (label : String) (firstResult : Option Result)
    (transform : T → ExecRes (AnyVal × Option String)) (next : Rule AnyVal)
    (ctx : Bool) (v : T) : ExecRes Result :=
  match transform v with
  | .crash => .crash
  | .ok (_, some e) =>
    .ok (Result.mk .fail label 4 ("transform failed: " ++ e) firstResult.toList)
  | .ok (u, none) =>
    match Rule.validateRecursive next ctx u with
    | .crash => .crash
    | .ok nextResult =>
      .ok (Result.mk nextResult.Status label 4
        (match nextResult.Status with
         | .fail => "second rule failed"
         | _ => "")
        (firstResult.toList ++ [nextResult]))
termination_by (sizeOf next, 1)

end

/-! Defining equations of the evaluator, restated as rewrite lemmas (the
functions are compiled by well-founded recursion, so their equations are not
definitional). -/

/-- Unfolding of `validateRecursive` on a rule node. -/
theorem Rule.validateRecursive_unfold {T : Type} (label : String) (kind : Int)
    (tf : Option (Bool → T → ExecRes (Option String))) (ch : RuleList T)
    (trf : Option (T → ExecRes (AnyVal × Option String))) (nr : Option (Rule AnyVal))
    (ctx : Bool) (v : T) :
    (Rule.mk label kind tf ch trf nr).validateRecursive ctx v =
      if ctx then
        .ok (Result.mk .fail label kind "context cancelled" [])
      else if kind = 0 then Rule.validateTest label tf ctx v
      else if kind = 1 then Rule.validateAll label ch ctx v
      else if kind = 2 then Rule.validateAny label ch ctx v
      else if kind = 3 then Rule.validateNot label ch ctx v
      else if kind = 4 then Rule.validateThen label ch trf nr ctx v
      else
        .ok (Result.mk .fail label kind ("unknown rule kind: " ++ kindString kind) []) := by
  rw [Rule.validateRecursive.eq_def]

/-- Unfolding of `validateAll`. -/
theorem Rule.validateAll_unfold {T : Type} (label : String) (ch : RuleList T)
    (ctx : Bool) (v : T) :
    Rule.validateAll label ch ctx v =
      match Rule.validateAllLoop ch ctx v with
      | .crash => .crash
      | .ok (cs, failed) =>
        .ok (Result.mk (if failed then .fail else .pass) label 1 "" cs) := by
  rw [Rule.validateAll.eq_def]

/-- Unfolding of `validateAllLoop` on an empty child list. -/
theorem Rule.validateAllLoop_nil {T : Type} (ctx : Bool) (v : T) :
    Rule.validateAllLoop (.nil : RuleList T) ctx v = .ok ([], false) := by
  rw [Rule.validateAllLoop.eq_def]

/-- Unfolding of `validateAllLoop` on a nonempty child list. -/
theorem Rule.validateAllLoop_cons {T : Type} (r : Rule T) (rest : RuleList T)
    (ctx : Bool) (v : T) :
    Rule.validateAllLoop (.cons r rest) ctx v =
      match Rule.validateRecursive r ctx v with
      | .crash => .crash
      | .ok childResult =>
        if childResult.Status = .fail then
          .ok (childResult :: RuleList.skipAll rest, true)
        else
          match Rule.validateAllLoop rest ctx v with
          | .crash => .crash
          | .ok (others, failed) => .ok (childResult :: others, failed) := by
  rw [Rule.validateAllLoop.eq_def]

/-- Unfolding of `validateAny`. -/
theorem Rule.validateAny_unfold {T : Type} (label : String) (ch : RuleList T)
    (ctx : Bool) (v : T) :
    Rule.validateAny label ch ctx v =
      match Rule.validateAnyLoop ch ctx v with
      | .crash => .crash
      | .ok (cs, passed) =>
        .ok (Result.mk (if passed then .pass else .fail) label 2 "" cs) := by
  rw [Rule.validateAny.eq_def]

/-- Unfolding of `validateAnyLoop` on an empty child list. -/
theorem Rule.validateAnyLoop_nil {T : Type} (ctx : Bool) (v : T) :
    Rule.validateAnyLoop (.nil : RuleList T) ctx v = .ok ([], false) := by
  rw [Rule.validateAnyLoop.eq_def]

/-- Unfolding of `validateAnyLoop` on a nonempty child list. -/
theorem Rule.validateAnyLoop_cons {T : Type} (r : Rule T) (rest : RuleList T)
    (ctx : Bool) (v : T) :
    Rule.validateAnyLoop (.cons r rest) ctx v =
      match Rule.validateRecursive r ctx v with
      | .crash => .crash
      | .ok childResult =>
        if childResult.Status = .pass then
          .ok (childResult :: RuleList.skipAll rest, true)
        else
          match Rule.validateAnyLoop rest ctx v with
          | .crash => .crash
          | .ok (others, passed) => .ok (childResult :: others, passed) := by
  rw [Rule.validateAnyLoop.eq_def]

/-- Unfolding of `validateNot` at arity one. -/
theorem Rule.validateNot_one {T : Type} (label : String) (c : Rule T)
    (ctx : Bool) (v : T) :
    Rule.validateNot label (.cons c .nil) ctx v =
      match Rule.validateRecursive c ctx v with
      | .crash => .crash
      | .ok childResult =>
        .ok (Result.mk
          (match childResult.Status with
           | .pass => .fail
           | .fail => .pass
           | .skip => .skip)
          label 3
          (match childResult.Status with
           | .pass => "not rule failed (child passed)"
           | _ => "")
          [childResult]) := by
  rw [Rule.validateNot.eq_def]

/-- Unfolding of `validateNot` at arity zero. -/
theorem Rule.validateNot_zero {T : Type} (label : String) (ctx : Bool) (v : T) :
    Rule.validateNot label (.nil : RuleList T) ctx v =
      .ok (Result.mk .fail label 3 "not rule must have exactly one child" []) := by
  rw [Rule.validateNot.eq_def]

/-- Unfolding of `validateNot` at arity two or more. -/
theorem Rule.validateNot_many {T : Type} (label : String) (c c2 : Rule T)
    (rest : RuleList T) (ctx : Bool) (v : T) :
    Rule.validateNot label (.cons c (.cons c2 rest)) ctx v =
      .ok (Result.mk .fail label 3 "not rule must have exactly one child" []) := by
  rw [Rule.validateNot.eq_def]

/-- Unfolding of `validateThen` with no first-stage child. -/
theorem Rule.validateThen_nil {T : Type} (label : String)
    (transform : T → ExecRes (AnyVal × Option String)) (next : Rule AnyVal)
    (ctx : Bool) (v : T) :
    Rule.validateThen label (.nil : RuleList T) (some transform) (some next) ctx v =
      Rule.validateThenTail label none transform next ctx v := by
  rw [Rule.validateThen.eq_def]

/-- Unfolding of `validateThen` with a first-stage child. -/
theorem Rule.validateThen_cons {T : Type} (label : String) (c : Rule T)
    (tl : RuleList T) (transform : T → ExecRes (AnyVal × Option String))
    (next : Rule AnyVal) (ctx : Bool) (v : T) :
    Rule.validateThen label (.cons c tl) (some transform) (some next) ctx v =
      match Rule.validateRecursive c ctx v with
      | .crash => .crash
      | .ok firstResult =>
        if firstResult.Status = .fail then
          .ok (Result.mk .fail label 4 "first rule failed" [firstResult])
        else
          Rule.validateThenTail label (some firstResult) transform next ctx v := by
  rw [Rule.validateThen.eq_def]

/-- Unfolding of `validateThenTail`. -/
theorem Rule.validateThenTail_unfold {T : Type} (label : String)
    (firstResult : Option Result) (transform : T → ExecRes (AnyVal × Option String))
    (next : Rule AnyVal) (ctx : Bool) (v : T) :
    Rule.validateThenTail label firstResult transform next ctx v =
      match transform v with
      | .crash => .crash
      | .ok (_, some e) =>
        .ok (Result.mk .fail label 4 ("transform failed: " ++ e) firstResult.toList)
      | .ok (u, none) =>
        match Rule.validateRecursive next ctx u with
        | .crash => .crash
        | .ok nextResult =>
          .ok (Result.mk nextResult.Status label 4
            (match nextResult.Status with
             | .fail => "second rule failed"
             | _ => "")
            (firstResult.toList ++ [nextResult])) := by
  rw [Rule.validateThenTail.eq_def]

/-- Embeds `Rule.Validate`: evaluate and pair the trace with `OK()`. -/
def Rule.Validate {T : Type} (r : Rule T) (ctx : Bool) (v : T) : ExecRes (Result × Bool) :=
  match Rule.validateRecursive r ctx v with
  | .crash => .crash
  | .ok res => .ok (res, res.OK)

/-- Embeds the constructor `Test`. -/
def Test {T : Type} (label : String) (fn : Bool → T → ExecRes (Option String)) : Rule T :=
  Rule.mk label 0 (some fn) .nil none none

/-- Embeds the constructor `All`. -/
def All {T : Type} (rules : List (Rule T)) : Rule T :=
  Rule.mk "all" 1 none (RuleList.fromList rules) none none

/-- Embeds the constructor `Any`. -/
def Any {T : Type} (rules : List (Rule T)) : Rule T :=
  Rule.mk "any" 2 none (RuleList.fromList rules) none none

/-- Embeds the constructor `Not`. -/
def Not {T : Type} (rule : Rule T) : Rule T :=
  Rule.mk "not" 3 none (.cons rule .nil) none none

/-- A concrete Go type usable behind `any`: its injection into the erased
representation, the checked type assertion back, and its `%T` name. -/
class GoVal (U : Type) where
  inject : U → AnyVal
  proj : AnyVal → Option U
  typeName : String

instance : GoVal String := ⟨.aStr, fun x => match x with | .aStr s => some s | _ => none, "string"⟩

instance : GoVal Int := ⟨.aInt, fun x => match x with | .aInt n => some n | _ => none, "int"⟩

instance : GoVal Bool := ⟨.aBool, fun x => match x with | .aBool b => some b | _ => none, "bool"⟩

mutual

/-- Embeds `typeEraseRule`: copy label and kind, wrap the predicate with a
checked type assertion, recursively erase the children.  As in the source,
the `Transform` and `NextRule` fields are not copied. -/
def typeEraseRule {U : Type} [GoVal U] : Rule U → Rule AnyVal
  | .mk label kind tf ch _ _ =>
    Rule.mk label kind
      (match tf with
       | none => none
       | some fn => some (fun ctx val =>
           match GoVal.proj val with
           | some u => fn ctx u
           | none => .ok (some ("type assertion failed: expected " ++
               @GoVal.typeName U _ ++ ", got " ++ val.goTypeName))))
      (typeEraseRuleList ch) none none

/-- Children loop of `typeEraseRule`. -/
def typeEraseRuleList {U : Type} [GoVal U] : RuleList U → RuleList AnyVal
  | .nil => .nil
  | .cons r rest => .cons (typeEraseRule r) (typeEraseRuleList rest)

end

/-- Embeds the constructor `Then` of the pipeline-carrying variant: store the
first rule as the single child, type-erase the transform's output and the
second-stage rule. -/
def Then {T U : Type} [GoVal U] (first : Rule T)
    (transform : T → ExecRes (U × Option String)) (next : Rule U) : Rule T :=
  Rule.mk "then" 4 none (.cons first .nil)
    (some (fun t =>
      match transform t with
      | .crash => .crash
      | .ok (u, err) => .ok (GoVal.inject u, err)))
    (some (typeEraseRule next))

/-- Go renders a nil `error` as `<nil>` under the `%v` verb; a non-nil error
renders as its message. -/
def errorFmt : Option String → String
  | none => "<nil>"
  | some s => s

/-- The loop inside `OneOf`'s predicate: validate every rule, counting
passes and remembering the last failure message. -/
def oneOfLoop {T : Type} (ctx : Bool) (v : T) :
    List (Rule T) → Nat → Option String → ExecRes (Option String)
  | [], passCount, lastError =>
    if passCount = 0 then
      .ok (some ("none of the rules passed: " ++ errorFmt lastError))
    else if passCount > 1 then
      .ok (some "multiple rules passed (expected exactly one)")
    else .ok none
  | rule :: rest, passCount, lastError =>
    match rule.Validate ctx v with
    | .crash => .crash
    | .ok (result, _) =>
      if result.OK then oneOfLoop ctx v rest (passCount + 1) lastError
      else oneOfLoop ctx v rest passCount (some result.Message)

/-- Embeds `OneOf`: a leaf test whose predicate validates every given rule
and passes iff exactly one passes. -/
def OneOf {T : Type} (rules : List (Rule T)) : Rule T :=
  Test "one-of" (fun ctx v => oneOfLoop ctx v rules 0 none)

/-- Embeds the `ThenRule[T, U]` struct of the separate pipeline variant.
All three fields are nilable in Go. -/
structure ThenRule (T U : Type) : Type 1 where
  First : Option (Rule T)
  Transform : Option (T → ExecRes (U × Option String))
  Second : Option (Rule U)

/-- Calling `tr.Transform(t)` in Go: panics when the field is nil. -/
def ThenRule.applyTransform {T U : Type} (tr : ThenRule T U) (t : T) :
    ExecRes (U × Option String) :=
  match tr.Transform with
  | none => .crash
  | some f => f t

/-- Embeds `ThenRule.validateRecursive`: cancellation check, first-stage
rule, transform, second-stage rule.  A nil `First` or `Second` is
dereferenced unconditionally (panic); a nil `Transform` is called (panic). -/
def ThenRule.validateRecursive {T U : Type} (tr : ThenRule T U) (ctx : Bool) (v : T) :
    ExecRes Result :=
  if ctx then
    .ok (Result.mk .fail "then" 0 "context cancelled" [])
  else
    match tr.First with
    | none => .crash  -- tr.First.validateRecursive on a nil rule panics
    | some first =>
      match first.validateRecursive ctx v with
      | .crash => .crash
      | .ok firstResult =>
        if firstResult.Status = .fail then
          .ok (Result.mk .fail "then" 0 "first rule failed" [firstResult])
        else
          match tr.applyTransform v with
          | .crash => .crash
          | .ok (_, some e) =>
            .ok (Result.mk .fail "then" 0 ("transform failed: " ++ e) [firstResult])
          | .ok (u, none) =>
            match tr.Second with
            | none => .crash  -- tr.Second.validateRecursive on a nil rule panics
            | some second =>
              match second.validateRecursive ctx u with
              | .crash => .crash
              | .ok secondResult =>
                .ok (Result.mk secondResult.Status "then" 0
                  (match secondResult.Status with
                   | .fail => "second rule failed"
                   | _ => "") [firstResult, secondResult])

/-- Go's zero value of a type (`var zero V`). -/
class GoZero (V : Type) where
  zero : V

instance : GoZero Int := ⟨0⟩

instance : GoZero String := ⟨""⟩

instance : GoZero Bool := ⟨false⟩

/-- Embeds `ChainThen`: compose the prior pipeline's transform with a new
fallible transform, short-circuiting on the first error and returning the
zero value of the output type on failure. -/
def ChainThen {T U V : Type} [GoZero V] (tr : ThenRule T U)
    (transform : U → ExecRes (V × Option String)) (next : Option (Rule V)) :
    ThenRule T V :=
  ⟨tr.First,
   some (fun t =>
     match tr.applyTransform t with
     | .crash => .crash
     | .ok (_, some err) => .ok (GoZero.zero, some err)
     | .ok (u, none) => transform u),
   next⟩

mutual

/-- True iff no node of the tree has kind `KindThen`. -/
def Rule.noThen {T : Type} : Rule T → Bool
  | .mk _ kind _ ch _ _ => (if kind = 4 then false else true) && RuleList.noThen ch

/-- Children loop of `Rule.noThen`. -/
def RuleList.noThen {T : Type} : RuleList T → Bool
  | .nil => true
  | .cons r rest => Rule.noThen r && RuleList.noThen rest

end

/-! Concrete leaf rules used to instantiate the theorems below. -/

/-- A leaf test over `Int` that always passes. -/
def tPassInt : Rule Int := Rule.mk "p" 0 (some fun _ _ => .ok none) .nil none none

/-- A leaf test over `Int` that always fails with message "nope". -/
def tFailInt : Rule Int := Rule.mk "f" 0 (some fun _ _ => .ok (some "nope")) .nil none none

/-- A leaf test over `Int` that passes exactly on the value `n`. -/
def tEqInt (n : Int) : Rule Int :=
  Rule.mk "eq" 0 (some fun _ v => .ok (if v = n then none else some "value mismatch"))
    .nil none none

/-- A leaf test over `AnyVal` that always passes. -/
def tPassAny : Rule AnyVal := Rule.mk "q" 0 (some fun _ _ => .ok none) .nil none none

/-- A leaf test over `AnyVal` that always fails with message "bad". -/
def tFailAny : Rule AnyVal := Rule.mk "g" 0 (some fun _ _ => .ok (some "bad")) .nil none none

/-- Evaluation of the always-passing `Int` leaf. -/
theorem tPassInt_eval (v : Int) :
    tPassInt.validateRecursive false v = .ok (Result.mk .pass "p" 0 "" []) := by
  simp [tPassInt, Rule.validateRecursive_unfold, Rule.validateTest]

/-- Evaluation of the always-failing `Int` leaf. -/
theorem tFailInt_eval (v : Int) :
    tFailInt.validateRecursive false v = .ok (Result.mk .fail "f" 0 "nope" []) := by
  simp [tFailInt, Rule.validateRecursive_unfold, Rule.validateTest]

/-- Evaluation of the equality leaf on an equal value. -/
theorem tEqInt_eval_eq (n : Int) :
    (tEqInt n).validateRecursive false n = .ok (Result.mk .pass "eq" 0 "" []) := by
  simp [tEqInt, Rule.validateRecursive_unfold, Rule.validateTest]

/-- Evaluation of the equality leaf on a different value. -/
theorem tEqInt_eval_ne (n v : Int) (h : v ≠ n) :
    (tEqInt n).validateRecursive false v = .ok (Result.mk .fail "eq" 0 "value mismatch" []) := by
  simp [tEqInt, Rule.validateRecursive_unfold, Rule.validateTest, h]

/-- Evaluation of the always-passing `AnyVal` leaf. -/
theorem tPassAny_eval (v : AnyVal) :
    tPassAny.validateRecursive false v = .ok (Result.mk .pass "q" 0 "" []) := by
  simp [tPassAny, Rule.validateRecursive_unfold, Rule.validateTest]

/-- Evaluation of the always-failing `AnyVal` leaf. -/
theorem tFailAny_eval (v : AnyVal) :
    tFailAny.validateRecursive false v = .ok (Result.mk .fail "g" 0 "bad" []) := by
  simp [tFailAny, Rule.validateRecursive_unfold, Rule.validateTest]

/-! Claim theorems. -/

/-- C1: the claim says evaluating any rule node, including manually
constructed malformed ones, with a non-cancelled signal always returns a
Result tree and never raises.  The code violates this: a Test node whose
`TestFn` field was never set (nil) makes `validateTest` call a nil function,
which panics.  This theorem evaluates the code at that failing input. -/
theorem claim_c1_nil_testfn_panics :
    (Rule.mk "bad" 0 none .nil none none : Rule Int).validateRecursive false 7 =
      ExecRes.crash := by
  simp [Rule.validateRecursive_unfold, Rule.validateTest]

/-- C2: with the cancellation signal already triggered, evaluating any rule
node of any kind (and likewise any `ThenRule` pipeline) over any value
returns a Fail result with message "context cancelled" and no children,
before any other logic — including structural checks — runs. -/
theorem claim_c2_cancelled_wins :
    (∀ (T : Type) (r : Rule T) (v : T),
      r.validateRecursive true v =
        .ok (Result.mk .fail r.Label r.Kind "context cancelled" [])) ∧
    (∀ (T U : Type) (tr : ThenRule T U) (v : T),
      tr.validateRecursive true v =
        .ok (Result.mk .fail "then" 0 "context cancelled" [])) := by
  constructor
  · intro T r v
    match r with
    | .mk label kind tf ch trf nr =>
      rw [Rule.validateRecursive_unfold]
      simp [Rule.Label, Rule.Kind]
  · intro T U tr v
    simp [ThenRule.validateRecursive]

/-- C6: evaluating a Not node with a non-cancelled signal fails with exactly
the message "not rule must have exactly one child" and no children when the
arity is not one; otherwise the single child is evaluated and its status
inverted (Pass becomes Fail with message "not rule failed (child passed)",
Fail becomes Pass with no message, Skip stays Skip), with the child's result
attached as the sole child. -/
theorem claim_c6_not_inverts :
    ∀ (T : Type) (label : String) (tf : Option (Bool → T → ExecRes (Option String)))
      (ch : RuleList T) (trf : Option (T → ExecRes (AnyVal × Option String)))
      (nr : Option (Rule AnyVal)) (v : T),
      (ch.length ≠ 1 →
        (Rule.mk label 3 tf ch trf nr).validateRecursive false v =
          .ok (Result.mk .fail label 3 "not rule must have exactly one child" [])) ∧
      (∀ (c : Rule T) (cres : Result), ch = .cons c .nil →
        c.validateRecursive false v = .ok cres →
        (Rule.mk label 3 tf ch trf nr).validateRecursive false v =
          .ok (Result.mk
            (match cres.Status with
             | .pass => .fail
             | .fail => .pass
             | .skip => .skip)
            label 3
            (match cres.Status with
             | .pass => "not rule failed (child passed)"
             | _ => "")
            [cres])) := by
  intro T label tf ch trf nr v
  constructor
  · intro hlen
    match ch with
    | .nil =>
      rw [Rule.validateRecursive_unfold]
      simp [Rule.validateNot_zero]
    | .cons c .nil => simp [RuleList.length] at hlen
    | .cons c (.cons c2 rest) =>
      rw [Rule.validateRecursive_unfold]
      simp [Rule.validateNot_many]
  · intro c cres hch hc
    subst hch
    rw [Rule.validateRecursive_unfold]
    simp [Rule.validateNot_one, hc]

/-- Witness for C6: concrete Not nodes with arity zero and with a passing
single child. -/
theorem claim_c6_not_inverts_witness :
    ((RuleList.nil : RuleList Int).length ≠ 1 ∧
      (Rule.mk "not" 3 none .nil none none : Rule Int).validateRecursive false 0 =
        .ok (Result.mk .fail "not" 3 "not rule must have exactly one child" [])) ∧
    (Rule.mk "not" 3 none (.cons tPassInt .nil) none none).validateRecursive false 0 =
      .ok (Result.mk .fail "not" 3 "not rule failed (child passed)"
        [Result.mk .pass "p" 0 "" []]) := by
  refine ⟨⟨by simp [RuleList.length], ?_⟩, ?_⟩
  · exact (claim_c6_not_inverts Int "not" none .nil none none 0).1 (by simp [RuleList.length])
  · exact (claim_c6_not_inverts Int "not" none (.cons tPassInt .nil) none none 0).2
      tPassInt (Result.mk .pass "p" 0 "" []) rfl (tPassInt_eval 0)

/-- C7: the claim says every pipeline with an absent first-stage rule treats
it as always passing and proceeds to the transform and second stage without
raising.  Counterexample: a `ThenRule` whose `First` field is nil panics
(nil rule dereference) as soon as evaluation reaches the first stage. -/
theorem claim_c7_counterexample :
    ThenRule.validateRecursive
      (⟨none, some (fun n : Int => .ok ((n : Int), none)), some tPassInt⟩ : ThenRule Int Int)
      false 5 = ExecRes.crash := by
  simp [ThenRule.validateRecursive]

/-- C7 (amended): a `KindThen` rule node whose children list is empty (the
representation of an absent first stage accepted by `validateThen`), with
transform and next rule present, records no first-stage child and proceeds
directly to the transform and the second stage; a `ThenRule` with nil
`First` panics instead. -/
theorem claim_c7_amended_no_first_stage :
    ∀ (T : Type) (label : String) (tf : Option (Bool → T → ExecRes (Option String)))
      (trf : T → ExecRes (AnyVal × Option String)) (next : Rule AnyVal) (v : T),
      (∀ (u : AnyVal) (e : String), trf v = .ok (u, some e) →
        (Rule.mk label 4 tf .nil (some trf) (some next)).validateRecursive false v =
          .ok (Result.mk .fail label 4 ("transform failed: " ++ e) [])) ∧
      (∀ (u : AnyVal) (nres : Result), trf v = .ok (u, none) →
        next.validateRecursive false u = .ok nres →
        (Rule.mk label 4 tf .nil (some trf) (some next)).validateRecursive false v =
          .ok (Result.mk nres.Status label 4
            (match nres.Status with
             | .fail => "second rule failed"
             | _ => "")
            [nres])) := by
  intro T label tf trf next v
  constructor
  · intro u e htr
    rw [Rule.validateRecursive_unfold]
    simp [Rule.validateThen_nil, Rule.validateThenTail_unfold, htr]
  · intro u nres htr hnext
    rw [Rule.validateRecursive_unfold]
    simp [Rule.validateThen_nil, Rule.validateThenTail_unfold, htr, hnext]

/-- Witness for the amended C7: a concrete first-stage-free pipeline whose
transform succeeds and whose second stage passes. -/
theorem claim_c7_amended_witness :
    (Rule.mk "then" 4 none .nil (some (fun n : Int => .ok (.aInt n, none)))
        (some tPassAny)).validateRecursive false 9 =
      .ok (Result.mk .pass "then" 4 "" [Result.mk .pass "q" 0 "" []]) := by
  exact (claim_c7_amended_no_first_stage Int "then" none
      (fun n : Int => .ok (.aInt n, none)) tPassAny 9).2
    (.aInt 9) (Result.mk .pass "q" 0 "" []) rfl (tPassAny_eval (.aInt 9))

/-- C3: pipeline evaluation with a non-cancelled signal.  First-stage
failure yields Fail "first rule failed" with exactly the first-stage result
as sole child, the transform and second stage never consulted (the
conclusion does not depend on them).  A transform error yields Fail
"transform failed: <reason>" with the first-stage result as only child when
a first stage is present, and no children otherwise.  On transform success
the second-stage status maps directly to the overall status (Pass to Pass,
Fail to Fail with "second rule failed", Skip to Skip with no message), with
children in order first-stage result (if present) then second-stage result.
Stated for the `KindThen` rule form (with and without a first-stage child)
and for the `ThenRule` form. -/
theorem claim_c3_pipeline_stages :
    (∀ (T : Type) (label : String) (tf : Option (Bool → T → ExecRes (Option String)))
       (first : Rule T) (trf : T → ExecRes (AnyVal × Option String))
       (next : Rule AnyVal) (v : T) (fr : Result),
      first.validateRecursive false v = .ok fr →
      ((fr.Status = .fail →
        (Rule.mk label 4 tf (.cons first .nil) (some trf) (some next)).validateRecursive false v =
          .ok (Result.mk .fail label 4 "first rule failed" [fr])) ∧
       (∀ (u : AnyVal) (e : String), fr.Status ≠ .fail → trf v = .ok (u, some e) →
        (Rule.mk label 4 tf (.cons first .nil) (some trf) (some next)).validateRecursive false v =
          .ok (Result.mk .fail label 4 ("transform failed: " ++ e) [fr])) ∧
       (∀ (u : AnyVal) (nres : Result), fr.Status ≠ .fail → trf v = .ok (u, none) →
        next.validateRecursive false u = .ok nres →
        (Rule.mk label 4 tf (.cons first .nil) (some trf) (some next)).validateRecursive false v =
          .ok (Result.mk nres.Status label 4
            (match nres.Status with
             | .fail => "second rule failed"
             | _ => "")
            [fr, nres])))) ∧
    (∀ (T : Type) (label : String) (tf : Option (Bool → T → ExecRes (Option String)))
       (trf : T → ExecRes (AnyVal × Option String)) (next : Rule AnyVal) (v : T),
      ((∀ (u : AnyVal) (e : String), trf v = .ok (u, some e) →
        (Rule.mk label 4 tf .nil (some trf) (some next)).validateRecursive false v =
          .ok (Result.mk .fail label 4 ("transform failed: " ++ e) [])) ∧
       (∀ (u : AnyVal) (nres : Result), trf v = .ok (u, none) →
        next.validateRecursive false u = .ok nres →
        (Rule.mk label 4 tf .nil (some trf) (some next)).validateRecursive false v =
          .ok (Result.mk nres.Status label 4
            (match nres.Status with
             | .fail => "second rule failed"
             | _ => "")
            [nres])))) ∧
    (∀ (T U : Type) (first : Rule T) (trf : T → ExecRes (U × Option String))
       (second : Rule U) (v : T) (fr : Result),
      first.validateRecursive false v = .ok fr →
      ((fr.Status = .fail →
        (⟨some first, some trf, some second⟩ : ThenRule T U).validateRecursive false v =
          .ok (Result.mk .fail "then" 0 "first rule failed" [fr])) ∧
       (∀ (u : U) (e : String), fr.Status ≠ .fail → trf v = .ok (u, some e) →
        (⟨some first, some trf, some second⟩ : ThenRule T U).validateRecursive false v =
          .ok (Result.mk .fail "then" 0 ("transform failed: " ++ e) [fr])) ∧
       (∀ (u : U) (nres : Result), fr.Status ≠ .fail → trf v = .ok (u, none) →
        second.validateRecursive false u = .ok nres →
        (⟨some first, some trf, some second⟩ : ThenRule T U).validateRecursive false v =
          .ok (Result.mk nres.Status "then" 0
            (match nres.Status with
             | .fail => "second rule failed"
             | _ => "")
            [fr, nres])))) := by
  refine ⟨?_, ?_, ?_⟩
  · intro T label tf first trf next v fr hfirst
    refine ⟨?_, ?_, ?_⟩
    · intro hfail
      rw [Rule.validateRecursive_unfold]
      simp [Rule.validateThen_cons, hfirst, hfail]
    · intro u e hnofail htr
      rw [Rule.validateRecursive_unfold]
      simp [Rule.validateThen_cons, hfirst, hnofail, Rule.validateThenTail_unfold, htr]
    · intro u nres hnofail htr hnext
      rw [Rule.validateRecursive_unfold]
      simp [Rule.validateThen_cons, hfirst, hnofail, Rule.validateThenTail_unfold, htr, hnext]
  · intro T label tf trf next v
    refine ⟨?_, ?_⟩
    · intro u e htr
      rw [Rule.validateRecursive_unfold]
      simp [Rule.validateThen_nil, Rule.validateThenTail_unfold, htr]
    · intro u nres htr hnext
      rw [Rule.validateRecursive_unfold]
      simp [Rule.validateThen_nil, Rule.validateThenTail_unfold, htr, hnext]
  · intro T U first trf second v fr hfirst
    refine ⟨?_, ?_, ?_⟩
    · intro hfail
      simp [ThenRule.validateRecursive, hfirst, hfail]
    · intro u e hnofail htr
      simp [ThenRule.validateRecursive, ThenRule.applyTransform, hfirst, hnofail, htr]
    · intro u nres hnofail htr hnext
      simp [ThenRule.validateRecursive, ThenRule.applyTransform, hfirst, hnofail, htr, hnext]

/-- Witness for C3: concrete pipelines exercising first-stage failure,
transform failure, and second-stage success. -/
theorem claim_c3_pipeline_stages_witness :
    ((Rule.mk "then" 4 none (.cons tFailInt .nil)
        (some (fun n : Int => .ok (.aInt n, none))) (some tPassAny)).validateRecursive false 3 =
      .ok (Result.mk .fail "then" 4 "first rule failed" [Result.mk .fail "f" 0 "nope" []])) ∧
    ((Rule.mk "then" 4 none (.cons tPassInt .nil)
        (some (fun n : Int => .ok (.aInt n, some "boom"))) (some tPassAny)).validateRecursive false 3 =
      .ok (Result.mk .fail "then" 4 "transform failed: boom" [Result.mk .pass "p" 0 "" []])) ∧
    ((Rule.mk "then" 4 none (.cons tPassInt .nil)
        (some (fun n : Int => .ok (.aInt n, none))) (some tPassAny)).validateRecursive false 3 =
      .ok (Result.mk .pass "then" 4 "" [Result.mk .pass "p" 0 "" [], Result.mk .pass "q" 0 "" []])) ∧
    ((⟨some tPassInt, some (fun n : Int => .ok (n, none)), some tFailInt⟩ :
        ThenRule Int Int).validateRecursive false 3 =
      .ok (Result.mk .fail "then" 0 "second rule failed"
        [Result.mk .pass "p" 0 "" [], Result.mk .fail "f" 0 "nope" []])) := by
  refine ⟨?_, ?_, ?_, ?_⟩
  · exact ((claim_c3_pipeline_stages.1 Int "then" none tFailInt
        (fun n : Int => .ok (.aInt n, none)) tPassAny 3
        (Result.mk .fail "f" 0 "nope" []) (tFailInt_eval 3)).1 (by decide))
  · exact ((claim_c3_pipeline_stages.1 Int "then" none tPassInt
        (fun n : Int => .ok (.aInt n, some "boom")) tPassAny 3
        (Result.mk .pass "p" 0 "" []) (tPassInt_eval 3)).2.1 (.aInt 3) "boom"
        (by decide) rfl)
  · exact ((claim_c3_pipeline_stages.1 Int "then" none tPassInt
        (fun n : Int => .ok (.aInt n, none)) tPassAny 3
        (Result.mk .pass "p" 0 "" []) (tPassInt_eval 3)).2.2 (.aInt 3)
        (Result.mk .pass "q" 0 "" []) (by decide) rfl (tPassAny_eval (.aInt 3)))
  · exact ((claim_c3_pipeline_stages.2.2 Int Int tPassInt
        (fun n : Int => .ok (n, none)) tFailInt 3
        (Result.mk .pass "p" 0 "" []) (tPassInt_eval 3)).2.2 3
        (Result.mk .fail "f" 0 "nope" []) (by decide) rfl (tFailInt_eval 3))

/-- Skip placeholders of a converted child list. -/
theorem skipAll_fromList {T : Type} (rs : List (Rule T)) :
    (RuleList.fromList rs).skipAll = rs.map skipResult := by
  induction rs with
  | nil => simp [RuleList.fromList, RuleList.skipAll]
  | cons r rest ih => simp [RuleList.fromList, RuleList.skipAll, ih]

/-- The `validateAll` loop when every child evaluates without failing:
all results are collected in order and no failure is reported. -/
theorem validateAllLoop_no_failure {T : Type} (ctx : Bool) (v : T)
    (rules : List (Rule T)) :
    ∀ (results : List Result),
      rules.map (fun r => r.validateRecursive ctx v) = results.map ExecRes.ok →
      (∀ res ∈ results, res.Status ≠ .fail) →
      Rule.validateAllLoop (RuleList.fromList rules) ctx v = .ok (results, false) := by
  induction rules with
  | nil =>
    intro results h _
    cases results with
    | nil => simp [RuleList.fromList, Rule.validateAllLoop_nil]
    | cons q qs => simp at h
  | cons r rest ih =>
    intro results h hnf
    cases results with
    | nil => simp at h
    | cons q qs =>
      simp only [List.map, List.cons.injEq] at h
      obtain ⟨h1, h2⟩ := h
      have hq : ¬ (q.Status = .fail) := hnf q (by simp)
      rw [RuleList.fromList, Rule.validateAllLoop_cons, h1]
      simp only [if_neg hq]
      rw [ih qs h2 (fun res hres => hnf res (by simp [hres]))]

/-- The `validateAll` loop when a first failure occurs after a prefix of
non-failing children: the prefix results, the failing result, and Skip
placeholders for the unevaluated remainder are collected, and a failure is
reported. -/
theorem validateAllLoop_first_failure {T : Type} (ctx : Bool) (v : T)
    (passed : List (Rule T)) :
    ∀ (pre : List Result),
      passed.map (fun r => r.validateRecursive ctx v) = pre.map ExecRes.ok →
      (∀ res ∈ pre, res.Status ≠ .fail) →
      ∀ (failing : Rule T) (fres : Result) (rest : List (Rule T)),
        failing.validateRecursive ctx v = .ok fres →
        fres.Status = .fail →
        Rule.validateAllLoop (RuleList.fromList (passed ++ failing :: rest)) ctx v =
          .ok (pre ++ fres :: rest.map skipResult, true) := by
  induction passed with
  | nil =>
    intro pre h _ failing fres rest hf hfail
    cases pre with
    | nil =>
      rw [List.nil_append, RuleList.fromList, Rule.validateAllLoop_cons, hf]
      simp [hfail, skipAll_fromList]
    | cons q qs => simp at h
  | cons r rtl ih =>
    intro pre h hnf failing fres rest hf hfail
    cases pre with
    | nil => simp at h
    | cons q qs =>
      simp only [List.map, List.cons.injEq] at h
      obtain ⟨h1, h2⟩ := h
      have hq : ¬ (q.Status = .fail) := hnf q (by simp)
      rw [List.cons_append, RuleList.fromList, Rule.validateAllLoop_cons, h1]
      simp only [if_neg hq]
      rw [ih qs h2 (fun res hres => hnf res (by simp [hres])) failing fres rest hf hfail]
      rfl

/-- The `validateAny` loop when every child evaluates without passing:
all results are collected in order and no pass is reported. -/
theorem validateAnyLoop_no_pass {T : Type} (ctx : Bool) (v : T)
    (rules : List (Rule T)) :
    ∀ (results : List Result),
      rules.map (fun r => r.validateRecursive ctx v) = results.map ExecRes.ok →
      (∀ res ∈ results, res.Status ≠ .pass) →
      Rule.validateAnyLoop (RuleList.fromList rules) ctx v = .ok (results, false) := by
  induction rules with
  | nil =>
    intro results h _
    cases results with
    | nil => simp [RuleList.fromList, Rule.validateAnyLoop_nil]
    | cons q qs => simp at h
  | cons r rest ih =>
    intro results h hnp
    cases results with
    | nil => simp at h
    | cons q qs =>
      simp only [List.map, List.cons.injEq] at h
      obtain ⟨h1, h2⟩ := h
      have hq : ¬ (q.Status = .pass) := hnp q (by simp)
      rw [RuleList.fromList, Rule.validateAnyLoop_cons, h1]
      simp only [if_neg hq]
      rw [ih qs h2 (fun res hres => hnp res (by simp [hres]))]

/-- The `validateAny` loop when a first pass occurs after a prefix of
non-passing children: the prefix results, the passing result, and Skip
placeholders for the unevaluated remainder are collected, and a pass is
reported. -/
theorem validateAnyLoop_first_pass {T : Type} (ctx : Bool) (v : T)
    (tried : List (Rule T)) :
    ∀ (pre : List Result),
      tried.map (fun r => r.validateRecursive ctx v) = pre.map ExecRes.ok →
      (∀ res ∈ pre, res.Status ≠ .pass) →
      ∀ (passing : Rule T) (pres : Result) (rest : List (Rule T)),
        passing.validateRecursive ctx v = .ok pres →
        pres.Status = .pass →
        Rule.validateAnyLoop (RuleList.fromList (tried ++ passing :: rest)) ctx v =
          .ok (pre ++ pres :: rest.map skipResult, true) := by
  induction tried with
  | nil =>
    intro pre h _ passing pres rest hp hpass
    cases pre with
    | nil =>
      rw [List.nil_append, RuleList.fromList, Rule.validateAnyLoop_cons, hp]
      simp [hpass, skipAll_fromList]
    | cons q qs => simp at h
  | cons r rtl ih =>
    intro pre h hnp passing pres rest hp hpass
    cases pre with
    | nil => simp at h
    | cons q qs =>
      simp only [List.map, List.cons.injEq] at h
      obtain ⟨h1, h2⟩ := h
      have hq : ¬ (q.Status = .pass) := hnp q (by simp)
      rw [List.cons_append, RuleList.fromList, Rule.validateAnyLoop_cons, h1]
      simp only [if_neg hq]
      rw [ih qs h2 (fun res hres => hnp res (by simp [hres])) passing pres rest hp hpass]
      rfl

/-- C4: an All combinator evaluated with a non-cancelled signal walks its
children left to right; when a first failing child exists, the earlier
children appear with their results, every later child appears as a Skip
placeholder (its label and kind, no message, no children), and the node
fails with all children present in order; when no child fails — the
zero-children case included — the node passes with all children's results. -/
theorem claim_c4_all_short_circuit :
    ∀ (T : Type) (label : String) (tf : Option (Bool → T → ExecRes (Option String)))
      (rules : List (Rule T)) (trf : Option (T → ExecRes (AnyVal × Option String)))
      (nr : Option (Rule AnyVal)) (v : T),
      (∀ (results : List Result),
        rules.map (fun r => r.validateRecursive false v) = results.map ExecRes.ok →
        (∀ res ∈ results, res.Status ≠ .fail) →
        (Rule.mk label 1 tf (RuleList.fromList rules) trf nr).validateRecursive false v =
          .ok (Result.mk .pass label 1 "" results)) ∧
      (∀ (passed : List (Rule T)) (pre : List Result) (failing : Rule T)
         (fres : Result) (rest : List (Rule T)),
        rules = passed ++ failing :: rest →
        passed.map (fun r => r.validateRecursive false v) = pre.map ExecRes.ok →
        (∀ res ∈ pre, res.Status ≠ .fail) →
        failing.validateRecursive false v = .ok fres →
        fres.Status = .fail →
        (Rule.mk label 1 tf (RuleList.fromList rules) trf nr).validateRecursive false v =
          .ok (Result.mk .fail label 1 "" (pre ++ fres :: rest.map skipResult))) := by
  intro T label tf rules trf nr v
  constructor
  · intro results h hnf
    have hloop := validateAllLoop_no_failure false v rules results h hnf
    rw [Rule.validateRecursive_unfold]
    simp [Rule.validateAll_unfold, hloop]
  · intro passed pre failing fres rest hsplit h hnf hf hfail
    subst hsplit
    have hloop := validateAllLoop_first_failure false v passed pre h hnf
      failing fres rest hf hfail
    rw [Rule.validateRecursive_unfold]
    simp [Rule.validateAll_unfold, hloop]

/-- Witness for C4: a concrete All node that passes on all children, and one
where the second child fails and the third is skipped. -/
theorem claim_c4_all_short_circuit_witness :
    ((Rule.mk "all" 1 none (RuleList.fromList [tPassInt, tEqInt 1]) none none).validateRecursive
        false 1 =
      .ok (Result.mk .pass "all" 1 ""
        [Result.mk .pass "p" 0 "" [], Result.mk .pass "eq" 0 "" []])) ∧
    ((Rule.mk "all" 1 none (RuleList.fromList [tPassInt, tFailInt, tEqInt 5])
        none none).validateRecursive false 0 =
      .ok (Result.mk .fail "all" 1 ""
        [Result.mk .pass "p" 0 "" [], Result.mk .fail "f" 0 "nope" [],
         Result.mk .skip "eq" 0 "" []])) := by
  constructor
  · exact (claim_c4_all_short_circuit Int "all" none [tPassInt, tEqInt 1] none none 1).1
      [Result.mk .pass "p" 0 "" [], Result.mk .pass "eq" 0 "" []]
      (by simp [tPassInt_eval, tEqInt_eval_eq]) (by intro res h; fin_cases h <;> decide)
  · have h := (claim_c4_all_short_circuit Int "all" none [tPassInt, tFailInt, tEqInt 5]
        none none 0).2 [tPassInt] [Result.mk .pass "p" 0 "" []] tFailInt
      (Result.mk .fail "f" 0 "nope" []) [tEqInt 5] rfl
      (by simp [tPassInt_eval]) (by intro res h; fin_cases h; decide)
      (tFailInt_eval 0) (by decide)
    simpa [skipResult, tEqInt, Rule.Label, Rule.Kind] using h

/-- C5: an Any combinator evaluated with a non-cancelled signal walks its
children left to right; when a first passing child exists, the earlier
children appear with their results, every later child appears as a Skip
placeholder, and the node passes; when no child passes — the zero-children
case included — the node fails with all children's results present. -/
theorem claim_c5_any_short_circuit :
    ∀ (T : Type) (label : String) (tf : Option (Bool → T → ExecRes (Option String)))
      (rules : List (Rule T)) (trf : Option (T → ExecRes (AnyVal × Option String)))
      (nr : Option (Rule AnyVal)) (v : T),
      (∀ (results : List Result),
        rules.map (fun r => r.validateRecursive false v) = results.map ExecRes.ok →
        (∀ res ∈ results, res.Status ≠ .pass) →
        (Rule.mk label 2 tf (RuleList.fromList rules) trf nr).validateRecursive false v =
          .ok (Result.mk .fail label 2 "" results)) ∧
      (∀ (tried : List (Rule T)) (pre : List Result) (passing : Rule T)
         (pres : Result) (rest : List (Rule T)),
        rules = tried ++ passing :: rest →
        tried.map (fun r => r.validateRecursive false v) = pre.map ExecRes.ok →
        (∀ res ∈ pre, res.Status ≠ .pass) →
        passing.validateRecursive false v = .ok pres →
        pres.Status = .pass →
        (Rule.mk label 2 tf (RuleList.fromList rules) trf nr).validateRecursive false v =
          .ok (Result.mk .pass label 2 "" (pre ++ pres :: rest.map skipResult))) := by
  intro T label tf rules trf nr v
  constructor
  · intro results h hnp
    have hloop := validateAnyLoop_no_pass false v rules results h hnp
    rw [Rule.validateRecursive_unfold]
    simp [Rule.validateAny_unfold, hloop]
  · intro tried pre passing pres rest hsplit h hnp hp hpass
    subst hsplit
    have hloop := validateAnyLoop_first_pass false v tried pre h hnp
      passing pres rest hp hpass
    rw [Rule.validateRecursive_unfold]
    simp [Rule.validateAny_unfold, hloop]

/-- Witness for C5: a concrete Any node where no child passes, and one where
the second child passes and the third is skipped. -/
theorem claim_c5_any_short_circuit_witness :
    ((Rule.mk "any" 2 none (RuleList.fromList [tFailInt, tEqInt 1]) none none).validateRecursive
        false 0 =
      .ok (Result.mk .fail "any" 2 ""
        [Result.mk .fail "f" 0 "nope" [], Result.mk .fail "eq" 0 "value mismatch" []])) ∧
    ((Rule.mk "any" 2 none (RuleList.fromList [tFailInt, tPassInt, tEqInt 5])
        none none).validateRecursive false 0 =
      .ok (Result.mk .pass "any" 2 ""
        [Result.mk .fail "f" 0 "nope" [], Result.mk .pass "p" 0 "" [],
         Result.mk .skip "eq" 0 "" []])) := by
  constructor
  · exact (claim_c5_any_short_circuit Int "any" none [tFailInt, tEqInt 1] none none 0).1
      [Result.mk .fail "f" 0 "nope" [], Result.mk .fail "eq" 0 "value mismatch" []]
      (by simp [tFailInt_eval, tEqInt_eval_ne 1 0 (by decide)])
      (by intro res h; fin_cases h <;> decide)
  · have h := (claim_c5_any_short_circuit Int "any" none [tFailInt, tPassInt, tEqInt 5]
        none none 0).2 [tFailInt] [Result.mk .fail "f" 0 "nope" []] tPassInt
      (Result.mk .pass "p" 0 "" []) [tEqInt 5] rfl
      (by simp [tFailInt_eval]) (by intro res h; fin_cases h; decide)
      (tPassInt_eval 0) (by decide)
    simpa [skipResult, tEqInt, Rule.Label, Rule.Kind] using h

/-- Number of passing results (`passCount` accumulated by `OneOf`'s loop). -/
def passCountOf : List Result → Nat
  | [] => 0
  | res :: rest => (if res.OK then 1 else 0) + passCountOf rest

/-- Message of the last non-passing result (`lastError` accumulated by
`OneOf`'s loop), if any result failed. -/
def lastFailMsg : List Result → Option String
  | [] => none
  | res :: rest =>
    match lastFailMsg rest with
    | some m => some m
    | none => if res.OK then none else some res.Message

/-- The verdict `OneOf`'s predicate reaches after its loop, from the final
pass count and last failure message. -/
def oneOfVerdict (passCount : Nat) (lastError : Option String) : ExecRes (Option String) :=
  if passCount = 0 then
    .ok (some ("none of the rules passed: " ++ errorFmt lastError))
  else if passCount > 1 then
    .ok (some "multiple rules passed (expected exactly one)")
  else .ok none

/-- The `OneOf` loop, characterized by the accumulated pass count and last
failure message when every child rule evaluates without panicking. -/
theorem oneOfLoop_spec {T : Type} (ctx : Bool) (v : T) (rules : List (Rule T)) :
    ∀ (results : List Result),
      rules.map (fun r => r.validateRecursive ctx v) = results.map ExecRes.ok →
      ∀ (pc : Nat) (le : Option String),
        oneOfLoop ctx v rules pc le =
          oneOfVerdict (pc + passCountOf results)
            (match lastFailMsg results with
             | none => le
             | some m => some m) := by
  induction rules with
  | nil =>
    intro results h pc le
    cases results with
    | nil => simp [oneOfLoop, oneOfVerdict, passCountOf, lastFailMsg]
    | cons q qs => simp at h
  | cons r rest ih =>
    intro results h pc le
    cases results with
    | nil => simp at h
    | cons q qs =>
      simp only [List.map, List.cons.injEq] at h
      obtain ⟨h1, h2⟩ := h
      rw [oneOfLoop, Rule.Validate, h1]
      by_cases hOK : q.OK
      · simp only [hOK, if_true, reduceIte]
        rw [ih qs h2 (pc + 1) le]
        have harith : pc + 1 + passCountOf qs = pc + passCountOf (q :: qs) := by
          simp [passCountOf, hOK]
          omega
        rw [harith]
        have hmsg : lastFailMsg (q :: qs) =
            match lastFailMsg qs with
            | some m => some m
            | none => none := by
          simp [lastFailMsg, hOK]
        rw [hmsg]
        cases lastFailMsg qs <;> rfl
      · simp only [hOK, Bool.false_eq_true, if_false, reduceIte]
        rw [ih qs h2 pc (some q.Message)]
        have harith : pc + passCountOf qs = pc + passCountOf (q :: qs) := by
          simp [passCountOf, hOK]
        rw [harith]
        have hmsg : lastFailMsg (q :: qs) =
            match lastFailMsg qs with
            | some m => some m
            | none => some q.Message := by
          simp [lastFailMsg, hOK]
        rw [hmsg]
        cases lastFailMsg qs <;> rfl

/-- The `OneOf` loop panics as soon as a child rule's evaluation panics,
even when earlier children already passed or failed. -/
theorem oneOfLoop_crash {T : Type} (ctx : Bool) (v : T) (pre : List (Rule T)) :
    ∀ (preRes : List Result),
      pre.map (fun r => r.validateRecursive ctx v) = preRes.map ExecRes.ok →
      ∀ (b : Rule T) (post : List (Rule T)) (pc : Nat) (le : Option String),
        b.validateRecursive ctx v = .crash →
        oneOfLoop ctx v (pre ++ b :: post) pc le = .crash := by
  induction pre with
  | nil =>
    intro preRes _ b post pc le hb
    rw [List.nil_append, oneOfLoop, Rule.Validate, hb]
  | cons r rtl ih =>
    intro preRes h b post pc le hb
    cases preRes with
    | nil => simp at h
    | cons q qs =>
      simp only [List.map, List.cons.injEq] at h
      obtain ⟨h1, h2⟩ := h
      rw [List.cons_append, oneOfLoop, Rule.Validate, h1]
      by_cases hOK : q.OK
      · simp only [hOK, reduceIte]
        exact ih qs h2 b post (pc + 1) le hb
      · simp only [hOK, Bool.false_eq_true, if_false, reduceIte]
        exact ih qs h2 b post pc (some q.Message) hb

/-- C8: `OneOf` evaluated with a non-cancelled signal evaluates every child
rule regardless of outcome (a panic in any child surfaces even when earlier
children already passed, so no child is short-circuited, and the result
carries no children, hence no Skip marking); it passes iff exactly one
child passes, fails with a message extending "none of the rules passed"
when zero children pass, and fails with a message containing "multiple
rules passed" when more than one child passes. -/
theorem claim_c8_one_of_counts :
    ∀ (T : Type) (rules : List (Rule T)) (v : T),
      (∀ (results : List Result),
        rules.map (fun r => r.validateRecursive false v) = results.map ExecRes.ok →
        ((passCountOf results = 1 →
          (OneOf rules).validateRecursive false v =
            .ok (Result.mk .pass "one-of" 0 "" [])) ∧
         (passCountOf results = 0 →
          (OneOf rules).validateRecursive false v =
            .ok (Result.mk .fail "one-of" 0
              ("none of the rules passed: " ++ errorFmt (lastFailMsg results)) [])) ∧
         (passCountOf results > 1 →
          (OneOf rules).validateRecursive false v =
            .ok (Result.mk .fail "one-of" 0
              "multiple rules passed (expected exactly one)" [])))) ∧
      (∀ (pre : List (Rule T)) (preRes : List Result) (b : Rule T) (post : List (Rule T)),
        rules = pre ++ b :: post →
        pre.map (fun r => r.validateRecursive false v) = preRes.map ExecRes.ok →
        b.validateRecursive false v = .crash →
        (OneOf rules).validateRecursive false v = .crash) := by
  intro T rules v
  constructor
  · intro results h
    have hloop := oneOfLoop_spec false v rules results h 0 none
    have hmerge : (match lastFailMsg results with
        | none => (none : Option String)
        | some m => some m) = lastFailMsg results := by
      cases lastFailMsg results <;> rfl
    rw [hmerge, Nat.zero_add] at hloop
    refine ⟨?_, ?_, ?_⟩
    · intro hcount
      rw [OneOf, Test, Rule.validateRecursive_unfold]
      simp only [Rule.validateTest, hloop, hcount, oneOfVerdict]
      simp
    · intro hcount
      rw [OneOf, Test, Rule.validateRecursive_unfold]
      simp only [Rule.validateTest, hloop, hcount, oneOfVerdict]
      simp
    · intro hcount
      rw [OneOf, Test, Rule.validateRecursive_unfold]
      simp only [Rule.validateTest, hloop, oneOfVerdict]
      simp only [if_neg (by omega : ¬ passCountOf results = 0), if_pos hcount]
      simp
  · intro pre preRes b post hsplit h hb
    subst hsplit
    have hloop := oneOfLoop_crash false v pre preRes h b post 0 none hb
    rw [OneOf, Test, Rule.validateRecursive_unfold]
    simp only [Rule.validateTest, hloop]
    simp

/-- Witness for C8: `one_of(eq 1, eq 2, eq 3)` passes on 1 and fails on 0
with the "none of the rules passed" message; one_of over two always-passing
rules fails with the "multiple rules passed" message; a panicking child
after a passing child still panics the whole node. -/
theorem claim_c8_one_of_counts_witness :
    ((OneOf [tEqInt 1, tEqInt 2, tEqInt 3]).validateRecursive false 1 =
      .ok (Result.mk .pass "one-of" 0 "" [])) ∧
    ((OneOf [tEqInt 1, tEqInt 2, tEqInt 3]).validateRecursive false 0 =
      .ok (Result.mk .fail "one-of" 0 "none of the rules passed: value mismatch" [])) ∧
    ((OneOf [tPassInt, tPassInt]).validateRecursive false 0 =
      .ok (Result.mk .fail "one-of" 0 "multiple rules passed (expected exactly one)" [])) ∧
    ((OneOf [tPassInt, Rule.mk "bad" 0 none .nil none none]).validateRecursive false 0 =
      ExecRes.crash) := by
  refine ⟨?_, ?_, ?_, ?_⟩
  · exact ((claim_c8_one_of_counts Int [tEqInt 1, tEqInt 2, tEqInt 3] 1).1
      [Result.mk .pass "eq" 0 "" [], Result.mk .fail "eq" 0 "value mismatch" [],
       Result.mk .fail "eq" 0 "value mismatch" []]
      (by simp [tEqInt_eval_eq, tEqInt_eval_ne 2 1 (by decide),
        tEqInt_eval_ne 3 1 (by decide)])).1 (by decide)
  · exact ((claim_c8_one_of_counts Int [tEqInt 1, tEqInt 2, tEqInt 3] 0).1
      [Result.mk .fail "eq" 0 "value mismatch" [], Result.mk .fail "eq" 0 "value mismatch" [],
       Result.mk .fail "eq" 0 "value mismatch" []]
      (by simp [tEqInt_eval_ne 1 0 (by decide), tEqInt_eval_ne 2 0 (by decide),
        tEqInt_eval_ne 3 0 (by decide)])).2.1 (by decide)
  · exact ((claim_c8_one_of_counts Int [tPassInt, tPassInt] 0).1
      [Result.mk .pass "p" 0 "" [], Result.mk .pass "p" 0 "" []]
      (by simp [tPassInt_eval])).2.2 (by decide)
  · exact (claim_c8_one_of_counts Int [tPassInt, Rule.mk "bad" 0 none .nil none none] 0).2
      [tPassInt] [Result.mk .pass "p" 0 "" []] (Rule.mk "bad" 0 none .nil none none) []
      rfl (by simp [tPassInt_eval])
      (by simp [Rule.validateRecursive_unfold, Rule.validateTest])

/-- C9: the transform composed by `ChainThen` short-circuits on a failure of
the prior pipeline's transform, returning the zero value of the output type
together with that failure and never consulting the new transform; on
success of the prior transform it applies the new transform to its output. -/
theorem claim_c9_chain_then :
    ∀ (T U V : Type) [GoZero V] (tr : ThenRule T U)
      (g : U → ExecRes (V × Option String)) (next : Option (Rule V)) (t : T),
      (∀ (u : U) (e : String), tr.applyTransform t = .ok (u, some e) →
        (ChainThen tr g next).applyTransform t = .ok (GoZero.zero, some e)) ∧
      (∀ u : U, tr.applyTransform t = .ok (u, none) →
        (ChainThen tr g next).applyTransform t = g u) := by
  intro T U V instz tr g next t
  have hunfold : (ChainThen tr g next).applyTransform t =
      (match tr.applyTransform t with
       | .crash => .crash
       | .ok (_, some err) => .ok (GoZero.zero, some err)
       | .ok (u, none) => g u) := rfl
  constructor
  · intro u e h
    rw [hunfold, h]
  · intro u h
    rw [hunfold, h]

/-- Witness for C9: a prior transform that fails with "boom" yields the zero
value and "boom"; a prior transform that succeeds feeds the new transform. -/
theorem claim_c9_chain_then_witness :
    ((ChainThen (⟨none, some (fun n : Int => .ok (n, some "boom")), none⟩ : ThenRule Int Int)
        (fun n : Int => .ok ((n + 1 : Int), none)) none).applyTransform 4 =
      .ok ((0 : Int), some "boom")) ∧
    ((ChainThen (⟨none, some (fun n : Int => .ok (n, none)), none⟩ : ThenRule Int Int)
        (fun n : Int => .ok ((n + 1 : Int), none)) none).applyTransform 4 =
      .ok ((5 : Int), none)) := by
  constructor
  · exact (claim_c9_chain_then Int Int Int
        (⟨none, some (fun n : Int => .ok (n, some "boom")), none⟩ : ThenRule Int Int)
        (fun n : Int => .ok ((n + 1 : Int), none)) none 4).1 4 "boom" rfl
  · have h := (claim_c9_chain_then Int Int Int
        (⟨none, some (fun n : Int => .ok (n, none)), none⟩ : ThenRule Int Int)
        (fun n : Int => .ok ((n + 1 : Int), none)) none 4).2 4 rfl
    simpa using h

/-- Unfolding of `typeEraseRule` on a rule node. -/
theorem typeEraseRule_unfold {U : Type} [GoVal U] (label : String) (kind : Int)
    (tf : Option (Bool → U → ExecRes (Option String))) (ch : RuleList U)
    (trf : Option (U → ExecRes (AnyVal × Option String))) (nr : Option (Rule AnyVal)) :
    typeEraseRule (Rule.mk label kind tf ch trf nr) =
      Rule.mk label kind
        (match tf with
         | none => none
         | some fn => some (fun ctx val =>
             match GoVal.proj val with
             | some u => fn ctx u
             | none => .ok (some ("type assertion failed: expected " ++
                 @GoVal.typeName U _ ++ ", got " ++ val.goTypeName))))
        (typeEraseRuleList ch) none none := by
  rw [typeEraseRule.eq_def]

/-- Unfolding of `typeEraseRuleList` on an empty child list. -/
theorem typeEraseRuleList_nil {U : Type} [GoVal U] :
    typeEraseRuleList (.nil : RuleList U) = .nil := by
  rw [typeEraseRuleList.eq_def]

/-- Unfolding of `typeEraseRuleList` on a nonempty child list. -/
theorem typeEraseRuleList_cons {U : Type} [GoVal U] (r : Rule U) (rest : RuleList U) :
    typeEraseRuleList (.cons r rest) = .cons (typeEraseRule r) (typeEraseRuleList rest) := by
  rw [typeEraseRuleList.eq_def]

/-- Unfolding of `Rule.noThen` on a rule node. -/
theorem Rule.noThen_mk {T : Type} (label : String) (kind : Int)
    (tf : Option (Bool → T → ExecRes (Option String))) (ch : RuleList T)
    (trf : Option (T → ExecRes (AnyVal × Option String))) (nr : Option (Rule AnyVal)) :
    (Rule.mk label kind tf ch trf nr).noThen =
      ((if kind = 4 then false else true) && ch.noThen) := by
  rw [Rule.noThen.eq_def]

/-- Unfolding of `RuleList.noThen` on an empty child list. -/
theorem RuleList.noThen_nil {T : Type} : (RuleList.nil : RuleList T).noThen = true := by
  rw [RuleList.noThen.eq_def]

/-- Unfolding of `RuleList.noThen` on a nonempty child list. -/
theorem RuleList.noThen_cons {T : Type} (r : Rule T) (rest : RuleList T) :
    (RuleList.cons r rest).noThen = (r.noThen && rest.noThen) := by
  rw [RuleList.noThen.eq_def]

/-- Type erasure preserves the Skip placeholders of a child list, since it
copies each child's label and kind. -/
theorem typeErase_skipAll {U : Type} [GoVal U] :
    ∀ (ch : RuleList U), (typeEraseRuleList ch).skipAll = ch.skipAll
  | .nil => by
    rw [typeEraseRuleList_nil]
    rfl
  | .cons r rest => by
    match r with
    | .mk label kind tf c trf nr =>
      rw [typeEraseRuleList_cons, typeEraseRule_unfold]
      simp [RuleList.skipAll, skipResult, Rule.Label, Rule.Kind,
        typeErase_skipAll rest]

mutual

/-- Evaluating the type-erased form of a Then-free rule on the injected
value coincides with evaluating the original rule, given that the erased
representation recovers every injected value. -/
theorem typeErase_validate {U : Type} [GoVal U]
    (hround : ∀ u : U, GoVal.proj (GoVal.inject u) = some u) :
    ∀ (r : Rule U), Rule.noThen r = true → ∀ (ctx : Bool) (v : U),
      (typeEraseRule r).validateRecursive ctx (GoVal.inject v) =
        r.validateRecursive ctx v
  | .mk label kind tf ch trf nr, hnt, ctx, v => by
    rw [Rule.noThen_mk, Bool.and_eq_true] at hnt
    obtain ⟨hk4, hch⟩ := hnt
    have hkind : kind ≠ 4 := by
      intro h
      rw [if_pos h] at hk4
      exact Bool.false_ne_true hk4
    rw [typeEraseRule_unfold, Rule.validateRecursive_unfold, Rule.validateRecursive_unfold]
    by_cases hctx : ctx
    · rw [if_pos hctx, if_pos hctx]
    · rw [if_neg hctx, if_neg hctx]
      by_cases h0 : kind = 0
      · subst h0
        simp only [Int.reduceEq, reduceIte, if_true, if_false]
        match tf with
        | none => rfl
        | some fn => simp [Rule.validateTest, hround v]
      · by_cases h1 : kind = 1
        · subst h1
          simp only [Int.reduceEq, reduceIte, if_true, if_false]
          rw [Rule.validateAll_unfold, Rule.validateAll_unfold,
            typeErase_allLoop hround ch hch]
        · by_cases h2 : kind = 2
          · subst h2
            simp only [Int.reduceEq, reduceIte, if_true, if_false]
            rw [Rule.validateAny_unfold, Rule.validateAny_unfold,
              typeErase_anyLoop hround ch hch]
          · by_cases h3 : kind = 3
            · subst h3
              simp only [Int.reduceEq, reduceIte, if_true, if_false]
              match ch with
              | .nil =>
                rw [typeEraseRuleList_nil, Rule.validateNot_zero, Rule.validateNot_zero]
              | .cons c .nil =>
                have hc : Rule.noThen c = true := by
                  rw [RuleList.noThen_cons, Bool.and_eq_true] at hch
                  exact hch.1
                rw [typeEraseRuleList_cons, typeEraseRuleList_nil,
                  Rule.validateNot_one, Rule.validateNot_one,
                  typeErase_validate hround c hc]
              | .cons c (.cons c2 rest) =>
                rw [typeEraseRuleList_cons, typeEraseRuleList_cons,
                  Rule.validateNot_many, Rule.validateNot_many]
            · rw [if_neg h0, if_neg h1, if_neg h2, if_neg h3, if_neg hkind,
                if_neg h0, if_neg h1, if_neg h2, if_neg h3, if_neg hkind]

/-- The `validateAll` loop commutes with type erasure on Then-free children. -/
theorem typeErase_allLoop {U : Type} [GoVal U]
    (hround : ∀ u : U, GoVal.proj (GoVal.inject u) = some u) :
    ∀ (ch : RuleList U), RuleList.noThen ch = true → ∀ (ctx : Bool) (v : U),
      Rule.validateAllLoop (typeEraseRuleList ch) ctx (GoVal.inject v) =
        Rule.validateAllLoop ch ctx v
  | .nil, _, ctx, v => by
    rw [typeEraseRuleList_nil, Rule.validateAllLoop_nil, Rule.validateAllLoop_nil]
  | .cons r rest, hnt, ctx, v => by
    rw [RuleList.noThen_cons, Bool.and_eq_true] at hnt
    obtain ⟨hr, hrest⟩ := hnt
    rw [typeEraseRuleList_cons, Rule.validateAllLoop_cons, Rule.validateAllLoop_cons,
      typeErase_validate hround r hr,
      typeErase_allLoop hround rest hrest, typeErase_skipAll rest]

/-- The `validateAny` loop commutes with type erasure on Then-free children. -/
theorem typeErase_anyLoop {U : Type} [GoVal U]
    (hround : ∀ u : U, GoVal.proj (GoVal.inject u) = some u) :
    ∀ (ch : RuleList U), RuleList.noThen ch = true → ∀ (ctx : Bool) (v : U),
      Rule.validateAnyLoop (typeEraseRuleList ch) ctx (GoVal.inject v) =
        Rule.validateAnyLoop ch ctx v
  | .nil, _, ctx, v => by
    rw [typeEraseRuleList_nil, Rule.validateAnyLoop_nil, Rule.validateAnyLoop_nil]
  | .cons r rest, hnt, ctx, v => by
    rw [RuleList.noThen_cons, Bool.and_eq_true] at hnt
    obtain ⟨hr, hrest⟩ := hnt
    rw [typeEraseRuleList_cons, Rule.validateAnyLoop_cons, Rule.validateAnyLoop_cons,
      typeErase_validate hround r hr,
      typeErase_anyLoop hround rest hrest, typeErase_skipAll rest]

end

/-- C10: for a rule over a concrete type with no Then nodes, evaluating its
type-erased form on the injected (erased) value, under the same cancellation
signal, yields exactly the Result tree — status, label, kind, message and
children — of evaluating the original rule directly, provided the erased
representation recovers every injected value of the type. -/
theorem claim_c10_type_erasure_refines :
    ∀ (U : Type) [GoVal U],
      (∀ u : U, GoVal.proj (GoVal.inject u) = some u) →
      ∀ (r : Rule U), Rule.noThen r = true → ∀ (ctx : Bool) (u : U),
        (typeEraseRule r).validateRecursive ctx (GoVal.inject u) =
          r.validateRecursive ctx u := by
  intro U inst hround r hnt ctx u
  exact typeErase_validate hround r hnt ctx u

/-- Witness for C10: a concrete Then-free tree over `Int` (an All node over
a Not node and two leaves) evaluates identically before and after erasure. -/
theorem claim_c10_type_erasure_refines_witness :
    Rule.noThen (Rule.mk "all" 1 none
        (RuleList.fromList [Rule.mk "not" 3 none (.cons (tEqInt 2) .nil) none none,
          tPassInt, tEqInt 1]) none none) = true ∧
    (typeEraseRule (Rule.mk "all" 1 none
        (RuleList.fromList [Rule.mk "not" 3 none (.cons (tEqInt 2) .nil) none none,
          tPassInt, tEqInt 1]) none none)).validateRecursive false (GoVal.inject (1 : Int)) =
      (Rule.mk "all" 1 none
        (RuleList.fromList [Rule.mk "not" 3 none (.cons (tEqInt 2) .nil) none none,
          tPassInt, tEqInt 1]) none none).validateRecursive false (1 : Int) := by
  constructor
  · simp [RuleList.fromList, Rule.noThen_mk, RuleList.noThen_nil, RuleList.noThen_cons,
      tPassInt, tEqInt]
  · exact claim_c10_type_erasure_refines Int (fun u => rfl)
      (Rule.mk "all" 1 none
        (RuleList.fromList [Rule.mk "not" 3 none (.cons (tEqInt 2) .nil) none none,
          tPassInt, tEqInt 1]) none none)
      (by simp [RuleList.fromList, Rule.noThen_mk, RuleList.noThen_nil, RuleList.noThen_cons,
        tPassInt, tEqInt])
      false 1

end Gook
